import Mathlib

/-!
Shallow embedding of the `image-converter` repository
(`src/image_converter/{core/{formats.py,converter.py},utils/batch.py,cli/app.py}`)
and proofs of the specification claims about it.

Filesystem state, directory creation and the external image codec are
modelled as oracles (`FSEnv`, `CollectEnv`): the embedding is parametric in
what the filesystem answers, and the theorems quantify over every oracle.
Python exceptions that escape a function are modelled with `Except`:
`.error e` means the call raised exception `e` past its boundary.
-/

/-- A `pathlib.Path`: a list of parent components (`p.parent`'s components)
and a final component (`p.name`).  Each component is a list of characters. -/
structure PyPath where
  dir : List (List Char)
  name : List Char
deriving DecidableEq, Repr

/-- Index of the last `'.'` in a name (`str.rfind('.')`), `none` when absent. -/
def rfindDot (cs : List Char) : Option Nat :=
  ((cs.enum.filter (fun p => p.2 == '.')).map (fun p => p.1)).getLast?

/-- `pathlib.PurePath.suffix`: the substring from the last dot, unless that
dot is the first or the last character of the name (then the empty string). -/
def pySuffix (cs : List Char) : List Char :=
  match rfindDot cs with
  | some i => if 0 < i ∧ i < cs.length - 1 then cs.drop i else []
  | none => []

/-- `pathlib.PurePath.stem`: the name without its `pySuffix`. -/
def pyStem (cs : List Char) : List Char :=
  match rfindDot cs with
  | some i => if 0 < i ∧ i < cs.length - 1 then cs.take i else cs
  | none => cs

/-- The components of a path viewed as a directory (used for `dir / name`). -/
def PyPath.asDir (p : PyPath) : List (List Char) :=
  p.dir ++ [p.name]

/-- `str(path)` on POSIX: components joined with `'/'`. -/
def renderPath (p : PyPath) : List Char :=
  List.intercalate "/".toList (p.dir ++ [p.name])

/-- `formats.SUPPORTED_INPUT_FORMATS` (a `set` in Python; fixed here as a
list, the iteration order being unspecified in the source). -/
def SUPPORTED_INPUT_FORMATS : List (List Char) :=
  [".png".toList, ".jpg".toList, ".jpeg".toList]

/-- `formats.OUTPUT_FORMAT`. -/
def OUTPUT_FORMAT : List Char := ".avif".toList

/-- `formats.is_supported_format`: the extension, lower-cased, is in the
supported set. -/
def is_supported_format (file_path : PyPath) : Bool :=
  decide ((pySuffix file_path.name).map Char.toLower ∈ SUPPORTED_INPUT_FORMATS)

/-- `formats.get_output_path`: `stem + ".avif"`, placed in `output_dir` when
given, else alongside the input. -/
def get_output_path (input_path : PyPath) (output_dir : Option PyPath) : PyPath :=
  let output_name := pyStem input_path.name ++ OUTPUT_FORMAT
  match output_dir with
  | some d => { dir := d.asDir, name := output_name }
  | none => { dir := input_path.dir, name := output_name }

/-- `converter.ConversionResult`. -/
structure ConversionResult where
  input_path : PyPath
  output_path : Option PyPath
  success : Bool
  error_message : Option (List Char) := none
deriving DecidableEq, Repr

/-- `ConversionResult.filename`. -/
def ConversionResult.filename (r : ConversionResult) : List Char :=
  r.input_path.name

/-- Side effects of one `convert` call, recorded by the embedding:
whether `output_dir.mkdir` was invoked, whether the codec
(`_convert_image`) was invoked, and whether the output file was written. -/
structure Effects where
  mkdirInvoked : Bool
  codecInvoked : Bool
  fileWritten : Bool
deriving DecidableEq, Repr

/-- No side effect. -/
def Effects.empty : Effects := ⟨false, false, false⟩

/-- Filesystem / codec oracle for `ImageConverter.convert`:
`pathExists p` answers `p.exists()`; `mkdirFails d = some e` means
`d.mkdir(parents=True, exist_ok=True)` raises `e`; `codec q i o = some e`
means `_convert_image(i, o)` at quality `q` raises `e` (and `none` means it
succeeds and writes the output file). -/
structure FSEnv where
  pathExists : PyPath → Bool
  mkdirFails : PyPath → Option (List Char)
  codec : Int → PyPath → PyPath → Option (List Char)

/-- `converter.ImageConverter` (its one field, the clamped quality). -/
structure ImageConverter where
  quality : Int
deriving DecidableEq, Repr

/-- `ImageConverter.DEFAULT_QUALITY`. -/
def ImageConverter.DEFAULT_QUALITY : Int := 80

/-- `ImageConverter.MIN_QUALITY`. -/
def ImageConverter.MIN_QUALITY : Int := 0

/-- `ImageConverter.MAX_QUALITY`. -/
def ImageConverter.MAX_QUALITY : Int := 100

/-- `ImageConverter._validate_quality`: clamp to `[MIN_QUALITY, MAX_QUALITY]`
(the out-of-range warning is a log line, not modelled). -/
def ImageConverter.validate_quality (quality : Int) : Int :=
  if quality < ImageConverter.MIN_QUALITY then ImageConverter.MIN_QUALITY
  else if quality > ImageConverter.MAX_QUALITY then ImageConverter.MAX_QUALITY
  else quality

/-- `ImageConverter.__init__`. -/
def ImageConverter.init (quality : Int := ImageConverter.DEFAULT_QUALITY) :
    ImageConverter :=
  { quality := ImageConverter.validate_quality quality }

/-- The `try: self._convert_image(...) / except` block of `convert`
(source lines 124-138): the codec either succeeds (the output file is
written) or its exception is caught and turned into a failure result. -/
def ImageConverter.encodeStep (c : ImageConverter) (env : FSEnv)
    (input_path output_path : PyPath) (mkdirInvoked : Bool) :
    ConversionResult × Effects :=
  match env.codec c.quality input_path output_path with
  | none =>
    ({ input_path := input_path, output_path := some output_path,
       success := true, error_message := none },
     { mkdirInvoked := mkdirInvoked, codecInvoked := true, fileWritten := true })
  | some e =>
    ({ input_path := input_path, output_path := some output_path,
       success := false, error_message := some e },
     { mkdirInvoked := mkdirInvoked, codecInvoked := true, fileWritten := false })

/-- `ImageConverter.convert`, decision for decision.  The result is
`.ok (conversion result, recorded side effects)`, or `.error e` when an
exception `e` escapes the call.  Note that `output_dir.mkdir` sits before
the `try` block in the source, so a `mkdirFails` answer escapes. -/
def ImageConverter.convert (c : ImageConverter) (env : FSEnv)
    (input_path : PyPath) (output_dir : Option PyPath) (overwrite : Bool) :
    Except (List Char) (ConversionResult × Effects) :=
  if env.pathExists input_path = false then
    .ok ({ input_path := input_path, output_path := none, success := false,
           error_message := some ("File not found: ".toList ++ renderPath input_path) },
         Effects.empty)
  else if is_supported_format input_path = false then
    .ok ({ input_path := input_path, output_path := none, success := false,
           error_message := some ("Unsupported format: ".toList ++ pySuffix input_path.name) },
         Effects.empty)
  else if env.pathExists (get_output_path input_path output_dir) && !overwrite then
    .ok ({ input_path := input_path,
           output_path := some (get_output_path input_path output_dir), success := false,
           error_message := some ("Output exists (use --overwrite): ".toList
                                  ++ renderPath (get_output_path input_path output_dir)) },
         Effects.empty)
  else
    match output_dir with
    | some d =>
      match env.mkdirFails d with
      | some e => .error e
      | none => .ok (c.encodeStep env input_path (get_output_path input_path output_dir) true)
    | none => .ok (c.encodeStep env input_path (get_output_path input_path output_dir) false)

/-- `batch.BatchResult`. -/
structure BatchResult where
  total : Nat := 0
  successful : Nat := 0
  failed : Nat := 0
  skipped : Nat := 0
  results : List ConversionResult := []
deriving DecidableEq, Repr

/-- `BatchResult.success_rate` (a Python float; modelled as a rational). -/
def BatchResult.success_rate (b : BatchResult) : ℚ :=
  if b.total = 0 then 0 else (b.successful : ℚ) / (b.total : ℚ) * 100

/-- `batch.BatchProcessor` (the converter and the clamped worker count). -/
structure BatchProcessor where
  converter : ImageConverter
  max_workers : Int
deriving DecidableEq, Repr

/-- `BatchProcessor.DEFAULT_WORKERS`. -/
def BatchProcessor.DEFAULT_WORKERS : Int := 4

/-- `BatchProcessor.__init__`: `max_workers = max(1, max_workers)`. -/
def BatchProcessor.init (converter : ImageConverter)
    (max_workers : Int := BatchProcessor.DEFAULT_WORKERS) : BatchProcessor :=
  { converter := converter, max_workers := max 1 max_workers }

/-- One iteration of the `as_completed` loop in `BatchProcessor.process`:
`future.result()` either returns the converter's result (counted as success
or failure and appended) or raises, in which case the `except` branch counts
a failure and appends a synthesized failure result.  Progress logging is
not modelled. -/
def processStep (c : ImageConverter) (env : FSEnv) (output_dir : Option PyPath)
    (overwrite : Bool) (acc : BatchResult) (file_path : PyPath) : BatchResult :=
  match c.convert env file_path output_dir overwrite with
  | .ok (conv_result, _) =>
    if conv_result.success then
      { acc with successful := acc.successful + 1,
                 results := acc.results ++ [conv_result] }
    else
      { acc with failed := acc.failed + 1,
                 results := acc.results ++ [conv_result] }
  | .error e =>
    { acc with failed := acc.failed + 1,
               results := acc.results ++ [{ input_path := file_path, output_path := none,
                                            success := false, error_message := some e }] }

/-- `BatchProcessor.process`, parametric in the order in which the thread
pool completes the submitted futures: `completed` is the completion order
of `files` (`as_completed` yields each future exactly once, so `completed`
is a permutation of `files`; the theorems take that as a hypothesis). -/
def BatchProcessor.processWithOrder (p : BatchProcessor) (env : FSEnv)
    (files completed : List PyPath) (output_dir : Option PyPath)
    (overwrite : Bool) : BatchResult :=
  let result : BatchResult := { total := files.length }
  if files.isEmpty then result
  else completed.foldl (processStep p.converter env output_dir overwrite) result

/-- `BatchProcessor.process` with the submission order as completion order
(one admissible schedule). -/
def BatchProcessor.process (p : BatchProcessor) (env : FSEnv)
    (files : List PyPath) (output_dir : Option PyPath) (overwrite : Bool) :
    BatchResult :=
  p.processWithOrder env files files output_dir overwrite

/-- Filesystem oracle for `BatchProcessor.collect_files`: `isFile`/`isDir`
answer `Path.is_file()`/`Path.is_dir()`; `glob d recursive ext` is the list
`d.glob(("**/*" if recursive else "*") + ext)` returns, in the enumeration
order the filesystem happens to produce; `resolve` is `Path.resolve()`
(canonicalized absolute form). -/
structure CollectEnv where
  isFile : PyPath → Bool
  isDir : PyPath → Bool
  glob : PyPath → Bool → List Char → List PyPath
  resolve : PyPath → PyPath

/-- The `files` list built by the scan loop of `collect_files`, before
deduplication: regular files are kept iff their extension is supported,
directories contribute their glob results for each supported extension in
lower- and upper-case form, missing paths are dropped with a warning. -/
def scanFiles (env : CollectEnv) (paths : List PyPath) (recursive : Bool) :
    List PyPath :=
  paths.foldl (fun files path =>
    if env.isFile path then
      if is_supported_format path then files ++ [path] else files
    else if env.isDir path then
      files ++ SUPPORTED_INPUT_FORMATS.foldl (fun acc ext =>
        acc ++ env.glob path recursive ext
            ++ env.glob path recursive (ext.map Char.toUpper)) []
    else files) []

/-- The dedup loop of `collect_files`: keep a file iff its resolved form has
not been seen, first occurrence wins (`seen` accumulates resolved forms). -/
def dedupFirst (resolve : PyPath → PyPath) (seen : List PyPath) :
    List PyPath → List PyPath
  | [] => []
  | f :: rest =>
    if resolve f ∈ seen then dedupFirst resolve seen rest
    else f :: dedupFirst resolve (resolve f :: seen) rest

/-- The order `sorted(...)` uses on `pathlib.Path` (POSIX): lexicographic
comparison of the rendered path strings. -/
def pathLe (a b : PyPath) : Prop :=
  renderPath a ≤ renderPath b

instance : DecidableRel pathLe := fun a b =>
  inferInstanceAs (Decidable (renderPath a ≤ renderPath b))

instance : IsTotal PyPath pathLe :=
  ⟨fun a b => le_total (renderPath a) (renderPath b)⟩

instance : IsTrans PyPath pathLe :=
  ⟨fun _ _ _ hab hbc => le_trans hab hbc⟩

/-- `BatchProcessor.collect_files`: scan, dedup by resolved form keeping
first occurrences, then sort. -/
def collect_files (env : CollectEnv) (paths : List PyPath)
    (recursive : Bool) : List PyPath :=
  let files := scanFiles env paths recursive
  let unique_files := dedupFirst env.resolve [] files
  List.insertionSort pathLe unique_files

/-- The CLI arguments of `cli.app` after successful parsing. -/
structure Args where
  input : List PyPath
  output : Option PyPath := none
  overwrite : Bool := false
  quality : Int := 80
  parallel : Int := 4
  no_recursive : Bool := false
  quiet : Bool := false
deriving Repr

/-- `cli.app.main` after argument parsing and logger setup: build the
converter and processor, collect files, early-return 1 when none were
found, otherwise process and map the batch result to the exit code. -/
def main_run (cenv : CollectEnv) (fenv : FSEnv) (args : Args) : Nat :=
  let converter := ImageConverter.init args.quality
  let processor := BatchProcessor.init converter args.parallel
  let files := collect_files cenv args.input (!args.no_recursive)
  if files.isEmpty then 1
  else
    let result := processor.process fenv files args.output args.overwrite
    if result.failed > 0 && decide (result.successful = 0) then 1
    else if result.failed > 0 then 2
    else 0

/-! ## Helper lemmas -/

/-- A name is its stem followed by its suffix. -/
theorem pyStem_append_pySuffix (cs : List Char) :
    pyStem cs ++ pySuffix cs = cs := by
  unfold pyStem pySuffix
  cases h : rfindDot cs with
  | none => simp
  | some i =>
    by_cases hc : 0 < i ∧ i < cs.length - 1
    · simp [hc, List.take_append_drop]
    · simp [hc]

/-! ## Claims -/

/-- C7: `get_output_path` is a pure function that replaces the input's
extension with `.avif` (the output name is the input's stem followed by
`OUTPUT_FORMAT`, and the input name is its stem followed by its extension);
with no output directory the result keeps the input's parent directory, and
with an output directory `d` the result's parent is `d`, regardless of the
input's own directory. -/
theorem get_output_path_spec (p d : PyPath) :
    (get_output_path p none).name = pyStem p.name ++ OUTPUT_FORMAT ∧
    (get_output_path p (some d)).name = pyStem p.name ++ OUTPUT_FORMAT ∧
    pyStem p.name ++ pySuffix p.name = p.name ∧
    (get_output_path p none).dir = p.dir ∧
    (get_output_path p (some d)).dir = d.asDir :=
  ⟨rfl, rfl, pyStem_append_pySuffix p.name, rfl, rfl⟩

/-- C8: quality is clamped to `[0, 100]` at construction: a converter
built with quality 150 is the same converter as one built with quality 100
(so every subsequent `convert` call behaves identically), likewise -5 and
0; and the stored quality always lies in `[MIN_QUALITY, MAX_QUALITY]`
(it is a plain immutable field thereafter). -/
theorem quality_clamped_at_construction :
    ImageConverter.init 150 = ImageConverter.init 100 ∧
    ImageConverter.init (-5) = ImageConverter.init 0 ∧
    (∀ (env : FSEnv) (i : PyPath) (od : Option PyPath) (ow : Bool),
      (ImageConverter.init 150).convert env i od ow
        = (ImageConverter.init 100).convert env i od ow) ∧
    (∀ (env : FSEnv) (i : PyPath) (od : Option PyPath) (ow : Bool),
      (ImageConverter.init (-5)).convert env i od ow
        = (ImageConverter.init 0).convert env i od ow) ∧
    (∀ q : Int, ImageConverter.MIN_QUALITY ≤ (ImageConverter.init q).quality ∧
      (ImageConverter.init q).quality ≤ ImageConverter.MAX_QUALITY) := by
  have h150 : ImageConverter.init 150 = ImageConverter.init 100 := by decide
  have hneg : ImageConverter.init (-5) = ImageConverter.init 0 := by decide
  refine ⟨h150, hneg, ?_, ?_, ?_⟩
  · intro env i od ow; rw [h150]
  · intro env i od ow; rw [hneg]
  · intro q
    have hq : (ImageConverter.init q).quality = ImageConverter.validate_quality q := rfl
    rw [hq]
    unfold ImageConverter.validate_quality
      ImageConverter.MIN_QUALITY ImageConverter.MAX_QUALITY
    split_ifs <;> omega

/-- C10: a path whose final component has no extension (empty suffix) is
not a supported format, and `convert` on such an existing file returns an
"Unsupported format" failure with the output path absent, instead of
attempting conversion. -/
theorem extensionless_file_unsupported (c : ImageConverter) (env : FSEnv)
    (p : PyPath) (od : Option PyPath) (ow : Bool)
    (hsuffix : pySuffix p.name = [])
    (hexists : env.pathExists p = true) :
    is_supported_format p = false ∧
    ∃ m, c.convert env p od ow =
        .ok ({ input_path := p, output_path := none, success := false,
               error_message := some m }, Effects.empty) ∧
      "Unsupported format".toList <+: m := by
  have hsup : is_supported_format p = false := by
    unfold is_supported_format
    rw [hsuffix]
    rfl
  refine ⟨hsup, "Unsupported format: ".toList ++ pySuffix p.name, ?_, ?_⟩
  · simp [ImageConverter.convert, hexists, hsup]
  · rw [hsuffix]
    decide

/-- C3: `convert` applies its decision sequence in order, first match wins:
a missing input yields a "File not found" failure with output path absent
(whatever the extension); an existing input with an unsupported extension
yields an "Unsupported format" failure with output path absent; and only
when both checks pass is the output path computed via `get_output_path` —
every result returned from that point on carries it. -/
theorem convert_decision_sequence (c : ImageConverter) (env : FSEnv)
    (p : PyPath) (od : Option PyPath) (ow : Bool) :
    (env.pathExists p = false →
      ∃ m, c.convert env p od ow =
          .ok ({ input_path := p, output_path := none, success := false,
                 error_message := some m }, Effects.empty) ∧
        "File not found".toList <+: m) ∧
    (env.pathExists p = true → is_supported_format p = false →
      ∃ m, c.convert env p od ow =
          .ok ({ input_path := p, output_path := none, success := false,
                 error_message := some m }, Effects.empty) ∧
        "Unsupported format".toList <+: m) ∧
    (env.pathExists p = true → is_supported_format p = true →
      ∀ r eff, c.convert env p od ow = .ok (r, eff) →
        r.output_path = some (get_output_path p od)) := by
  refine ⟨?_, ?_, ?_⟩
  · intro h1
    refine ⟨"File not found: ".toList ++ renderPath p, ?_, ?_⟩
    · simp [ImageConverter.convert, h1]
    · exact List.IsPrefix.trans (by decide) (List.prefix_append _ _)
  · intro h1 h2
    refine ⟨"Unsupported format: ".toList ++ pySuffix p.name, ?_, ?_⟩
    · simp [ImageConverter.convert, h1, h2]
    · exact List.IsPrefix.trans (by decide) (List.prefix_append _ _)
  · intro h1 h2 r eff hconv
    unfold ImageConverter.convert at hconv
    rw [h1, h2] at hconv
    simp only [Bool.true_eq_false, if_false] at hconv
    split at hconv
    · cases hconv
      rfl
    · split at hconv
      · split at hconv
        · cases hconv
        · unfold ImageConverter.encodeStep at hconv
          split at hconv <;> (cases hconv; rfl)
      · unfold ImageConverter.encodeStep at hconv
        split at hconv <;> (cases hconv; rfl)

/-- C4: on an existing supported input whose derived output path already
exists, `convert` with `overwrite = false` returns a failure result that
carries the output path, whose error mentions `overwrite`, and performs no
mutation: the codec is not invoked, no output file is written, and no
output directory is created (`Effects.empty`). -/
theorem convert_output_exists_frame (c : ImageConverter) (env : FSEnv)
    (p : PyPath) (od : Option PyPath)
    (h1 : env.pathExists p = true)
    (h2 : is_supported_format p = true)
    (h3 : env.pathExists (get_output_path p od) = true) :
    ∃ m, c.convert env p od false =
        .ok ({ input_path := p, output_path := some (get_output_path p od),
               success := false, error_message := some m }, Effects.empty) ∧
      "overwrite".toList <:+: m := by
  refine ⟨"Output exists (use --overwrite): ".toList ++ renderPath (get_output_path p od),
    ?_, ?_⟩
  · simp [ImageConverter.convert, h1, h2, h3]
  · refine ⟨"Output exists (use --".toList,
      "): ".toList ++ renderPath (get_output_path p od), ?_⟩
    have hsplit : "Output exists (use --".toList ++ "overwrite".toList ++ "): ".toList
        = "Output exists (use --overwrite): ".toList := by decide
    rw [← hsplit]
    simp [List.append_assoc]

/-- A sample supported input file, `photo.png` in the current directory. -/
def samplePng : PyPath := { dir := [], name := "photo.png".toList }

/-- A sample output directory, `out`. -/
def sampleOutDir : PyPath := { dir := [], name := "out".toList }

/-- An oracle in which `photo.png` exists, nothing else does, and creating
any directory raises `Permission denied` (e.g. the parent is read-only, or
a regular file occupies the target name — `exist_ok=True` does not suppress
either). -/
def mkdirFailEnv : FSEnv :=
  { pathExists := fun p => decide (p = samplePng),
    mkdirFails := fun _ => some "Permission denied".toList,
    codec := fun _ _ _ => none }

/-- C1 counterexample: `convert` does not capture every failure mode in the
returned result — `output_dir.mkdir` runs before the `try` block, so a
directory-creation failure escapes `convert` as an exception instead of
being returned as a failure `ConversionResult`. -/
theorem convert_raises_on_mkdir_failure :
    (ImageConverter.init 80).convert mkdirFailEnv samplePng (some sampleOutDir) false
      = .error "Permission denied".toList := by
  rfl

/-- C1 amended: `convert` never lets an exception escape **except** for a
directory-creation failure.  Whenever the output directory (if any) can be
created, `convert` returns a result, and every unsuccessful result carries
an error message; in particular missing file, unsupported format, existing
output and codec/IO errors are all captured in the returned result.  (A
mkdir exception that does escape is caught by the Orchestrator's
per-future `except` handler, so it still never crosses the task-completion
path unhandled.) -/
theorem convert_no_raise_without_mkdir_failure (c : ImageConverter)
    (env : FSEnv) (p : PyPath) (od : Option PyPath) (ow : Bool)
    (hmk : ∀ d, od = some d → env.mkdirFails d = none) :
    ∃ r eff, c.convert env p od ow = .ok (r, eff) ∧
      (r.success = false → ∃ m, r.error_message = some m) := by
  by_cases h1 : env.pathExists p = false
  · have heq : c.convert env p od ow = .ok
        ({ input_path := p, output_path := none, success := false,
           error_message := some ("File not found: ".toList ++ renderPath p) },
         Effects.empty) := by
      simp [ImageConverter.convert, h1]
    exact ⟨_, _, heq, fun _ => ⟨_, rfl⟩⟩
  · simp only [Bool.not_eq_false] at h1
    by_cases h2 : is_supported_format p = false
    · have heq : c.convert env p od ow = .ok
          ({ input_path := p, output_path := none, success := false,
             error_message := some ("Unsupported format: ".toList ++ pySuffix p.name) },
           Effects.empty) := by
        simp [ImageConverter.convert, h1, h2]
      exact ⟨_, _, heq, fun _ => ⟨_, rfl⟩⟩
    · simp only [Bool.not_eq_false] at h2
      by_cases h3 : (env.pathExists (get_output_path p od) && !ow) = true
      · have heq : c.convert env p od ow = .ok
            ({ input_path := p, output_path := some (get_output_path p od),
               success := false,
               error_message := some ("Output exists (use --overwrite): ".toList
                                      ++ renderPath (get_output_path p od)) },
             Effects.empty) := by
          simp [ImageConverter.convert, h1, h2, h3]
        exact ⟨_, _, heq, fun _ => ⟨_, rfl⟩⟩
      · simp only [Bool.not_eq_true] at h3
        have hstep : c.convert env p od ow
            = .ok (c.encodeStep env p (get_output_path p od) od.isSome) := by
          cases od with
          | none => simp [ImageConverter.convert, h1, h2, h3]
          | some d => simp [ImageConverter.convert, h1, h2, h3, hmk d rfl]
        rw [hstep]
        unfold ImageConverter.encodeStep
        split
        · exact ⟨_, _, rfl, fun hs => nomatch hs⟩
        · exact ⟨_, _, rfl, fun _ => ⟨_, rfl⟩⟩

/-- C1 witness: the amended theorem applied to a concrete call with no
output directory (so no mkdir can fail): the mkdir-failure hypothesis is
discharged and the call returns a captured result. -/
theorem convert_no_raise_without_mkdir_failure_witness :
    ∃ r eff, (ImageConverter.init 80).convert mkdirFailEnv samplePng none false
        = .ok (r, eff) ∧
      (r.success = false → ∃ m, r.error_message = some m) :=
  convert_no_raise_without_mkdir_failure (ImageConverter.init 80) mkdirFailEnv
    samplePng none false (fun d h => by cases h)

/-- One completed task changes the counters by exactly one: `total` and
`skipped` are untouched, and exactly one of `successful`/`failed` is
incremented, in every branch (converter success, converter failure, or an
exception caught by the Orchestrator's `except` handler). -/
theorem processStep_stats (c : ImageConverter) (env : FSEnv)
    (od : Option PyPath) (ow : Bool) (acc : BatchResult) (f : PyPath) :
    (processStep c env od ow acc f).total = acc.total ∧
    (processStep c env od ow acc f).skipped = acc.skipped ∧
    (processStep c env od ow acc f).successful + (processStep c env od ow acc f).failed
      = acc.successful + acc.failed + 1 := by
  unfold processStep
  split
  · split
    · exact ⟨rfl, rfl, by dsimp only; omega⟩
    · exact ⟨rfl, rfl, by dsimp only; omega⟩
  · exact ⟨rfl, rfl, by dsimp only; omega⟩

/-- Folding the completion loop over any list of completed tasks preserves
`total` and `skipped` and adds exactly the number of completed tasks to
`successful + failed`. -/
theorem foldl_processStep_stats (c : ImageConverter) (env : FSEnv)
    (od : Option PyPath) (ow : Bool) :
    ∀ (completed : List PyPath) (acc : BatchResult),
    ((completed.foldl (processStep c env od ow) acc).total = acc.total) ∧
    ((completed.foldl (processStep c env od ow) acc).skipped = acc.skipped) ∧
    ((completed.foldl (processStep c env od ow) acc).successful
      + (completed.foldl (processStep c env od ow) acc).failed
      = acc.successful + acc.failed + completed.length)
  | [], acc => by simp
  | f :: rest, acc => by
    obtain ⟨ht, hk, hc⟩ := processStep_stats c env od ow acc f
    obtain ⟨iht, ihk, ihc⟩ :=
      foldl_processStep_stats c env od ow rest (processStep c env od ow acc f)
    simp only [List.foldl_cons, List.length_cons]
    exact ⟨by omega, by omega, by omega⟩

/-- C2: after `process` returns, the batch result satisfies
`total = successful + failed`, with `total` the length of the input list,
for every completion order of the worker pool (any permutation of the
submitted files); and the empty batch returns
`total = 0, successful = 0, failed = 0` with no results collected and no
work dispatched. -/
theorem process_total_eq_successful_add_failed (p : BatchProcessor)
    (env : FSEnv) (files completed : List PyPath) (od : Option PyPath)
    (ow : Bool) (hperm : completed.Perm files) :
    ((p.processWithOrder env files completed od ow).total = files.length) ∧
    ((p.processWithOrder env files completed od ow).total
      = (p.processWithOrder env files completed od ow).successful
        + (p.processWithOrder env files completed od ow).failed) ∧
    (p.process env [] od ow
      = { total := 0, successful := 0, failed := 0, skipped := 0, results := [] }) := by
  have hempty : p.process env [] od ow
      = { total := 0, successful := 0, failed := 0, skipped := 0, results := [] } := rfl
  unfold BatchProcessor.processWithOrder
  by_cases hf : files.isEmpty
  · rw [List.isEmpty_iff] at hf
    subst hf
    have : completed = [] := List.Perm.eq_nil hperm
    subst this
    exact ⟨rfl, rfl, hempty⟩
  · have hf' : files.isEmpty = false := by
      cases h : files.isEmpty
      · rfl
      · exact absurd h hf
    simp only [hf', Bool.false_eq_true, if_false]
    obtain ⟨ht, _, hc⟩ := foldl_processStep_stats p.converter env od ow completed
      { total := files.length }
    refine ⟨ht, ?_, hempty⟩
    rw [ht]
    have hlen : completed.length = files.length := hperm.length_eq
    dsimp only at hc ⊢
    omega

/-- C2 witness: the invariant applied to a concrete one-file batch with a
concrete completion order, its permutation hypothesis discharged. -/
theorem process_total_eq_successful_add_failed_witness :
    (((BatchProcessor.init (ImageConverter.init 80) 4).processWithOrder mkdirFailEnv
        [samplePng] [samplePng] none false).total = [samplePng].length) ∧
    (((BatchProcessor.init (ImageConverter.init 80) 4).processWithOrder mkdirFailEnv
        [samplePng] [samplePng] none false).total
      = ((BatchProcessor.init (ImageConverter.init 80) 4).processWithOrder mkdirFailEnv
          [samplePng] [samplePng] none false).successful
        + ((BatchProcessor.init (ImageConverter.init 80) 4).processWithOrder mkdirFailEnv
            [samplePng] [samplePng] none false).failed) ∧
    ((BatchProcessor.init (ImageConverter.init 80) 4).process mkdirFailEnv [] none false
      = { total := 0, successful := 0, failed := 0, skipped := 0, results := [] }) :=
  process_total_eq_successful_add_failed
    (BatchProcessor.init (ImageConverter.init 80) 4) mkdirFailEnv
    [samplePng] [samplePng] none false (List.Perm.refl _)

/-- C9: the `skipped` counter of `BatchResult` is initialized to zero and
never incremented by any branch of `process`: for every file list, every
completion order and every option combination the returned batch result
has `skipped = 0`. -/
theorem process_skipped_eq_zero (p : BatchProcessor) (env : FSEnv)
    (files completed : List PyPath) (od : Option PyPath) (ow : Bool) :
    ((p.processWithOrder env files completed od ow).skipped = 0) ∧
    ((p.process env files od ow).skipped = 0) := by
  have key : ∀ done : List PyPath,
      (p.processWithOrder env files done od ow).skipped = 0 := by
    intro done
    unfold BatchProcessor.processWithOrder
    by_cases hf : files.isEmpty
    · simp [hf]
    · have hf' : files.isEmpty = false := by
        cases h : files.isEmpty
        · rfl
        · exact absurd h hf
      simp only [hf', Bool.false_eq_true, if_false]
      obtain ⟨_, hk, _⟩ := foldl_processStep_stats p.converter env od ow done
        { total := files.length }
      exact hk
  exact ⟨key completed, key files⟩

/-- An oracle on which no path exists. -/
def emptyFsEnv : FSEnv :=
  { pathExists := fun _ => false,
    mkdirFails := fun _ => none,
    codec := fun _ _ _ => none }

/-- An oracle on which every path exists (in particular every derived
output path) and mkdir and the codec always succeed. -/
def allExistsEnv : FSEnv :=
  { pathExists := fun _ => true,
    mkdirFails := fun _ => none,
    codec := fun _ _ _ => none }

/-- A sample file whose name has no extension. -/
def sampleNoExt : PyPath := { dir := [], name := "Makefile".toList }

/-- C3 witness: the decision sequence applied to a concrete call on a
missing input, the non-existence hypothesis discharged. -/
theorem convert_decision_sequence_witness :
    ∃ m, (ImageConverter.init 80).convert emptyFsEnv samplePng none false =
        .ok ({ input_path := samplePng, output_path := none, success := false,
               error_message := some m }, Effects.empty) ∧
      "File not found".toList <+: m :=
  (convert_decision_sequence (ImageConverter.init 80) emptyFsEnv
    samplePng none false).1 rfl

/-- C4 witness: the frame theorem applied to a concrete call where the
input and its derived output both exist, the hypotheses discharged. -/
theorem convert_output_exists_frame_witness :
    ∃ m, (ImageConverter.init 80).convert allExistsEnv samplePng none false =
        .ok ({ input_path := samplePng,
               output_path := some (get_output_path samplePng none),
               success := false, error_message := some m }, Effects.empty) ∧
      "overwrite".toList <:+: m :=
  convert_output_exists_frame (ImageConverter.init 80) allExistsEnv samplePng none
    rfl (by decide) rfl

/-- C10 witness: the theorem applied to a concrete existing extensionless
file, the empty-suffix and existence hypotheses discharged. -/
theorem extensionless_file_unsupported_witness :
    is_supported_format sampleNoExt = false ∧
    ∃ m, (ImageConverter.init 80).convert allExistsEnv sampleNoExt none false =
        .ok ({ input_path := sampleNoExt, output_path := none, success := false,
               error_message := some m }, Effects.empty) ∧
      "Unsupported format".toList <+: m :=
  extensionless_file_unsupported (ImageConverter.init 80) allExistsEnv
    sampleNoExt none false (by decide) rfl

/-- The dedup loop keeps pairwise resolve-distinct entries, and every kept
entry is the first occurrence of its resolved form in the scanned list
(no earlier scanned entry resolves to the same path), with its resolved
form not among the already-seen ones. -/
theorem dedupFirst_spec (resolve : PyPath → PyPath) :
    ∀ (l seen : List PyPath),
    ((dedupFirst resolve seen l).Pairwise (fun a b => resolve a ≠ resolve b)) ∧
    (∀ f ∈ dedupFirst resolve seen l, resolve f ∉ seen ∧
      ∃ pre post, l = pre ++ f :: post ∧ ∀ g ∈ pre, resolve g ≠ resolve f)
  | [], seen => ⟨List.Pairwise.nil, by simp [dedupFirst]⟩
  | f :: rest, seen => by
    unfold dedupFirst
    by_cases hmem : resolve f ∈ seen
    · rw [if_pos hmem]
      obtain ⟨pw, mem⟩ := dedupFirst_spec resolve rest seen
      refine ⟨pw, ?_⟩
      intro g hg
      obtain ⟨hns, pre, post, hsplit, hpre⟩ := mem g hg
      refine ⟨hns, f :: pre, post, by rw [hsplit]; rfl, ?_⟩
      intro x hx
      rcases List.mem_cons.mp hx with hxf | hx'
      · subst hxf
        intro hEq
        rw [hEq] at hmem
        exact hns hmem
      · exact hpre x hx'
    · rw [if_neg hmem]
      obtain ⟨pw, mem⟩ := dedupFirst_spec resolve rest (resolve f :: seen)
      constructor
      · refine List.Pairwise.cons ?_ pw
        intro g hg
        obtain ⟨hns, _⟩ := mem g hg
        intro hEq
        exact hns (by rw [← hEq]; exact List.mem_cons_self _ _)
      · intro g hg
        rcases List.mem_cons.mp hg with hgf | hg'
        · subst hgf
          exact ⟨hmem, [], rest, rfl, by simp⟩
        · obtain ⟨hns, pre, post, hsplit, hpre⟩ := mem g hg'
          refine ⟨fun hin => hns (List.mem_cons_of_mem _ hin),
            f :: pre, post, by rw [hsplit]; rfl, ?_⟩
          intro x hx
          rcases List.mem_cons.mp hx with hxf | hx'
          · subst hxf
            intro hEq
            exact hns (by rw [← hEq]; exact List.mem_cons_self _ _)
          · exact hpre x hx'

/-- Counting helper: inserting a fresh element on the left of a set
difference. -/
theorem card_insert_sdiff (r : PyPath) (S T : Finset PyPath) (h : r ∉ T) :
    (S \ insert r T).card + 1 = (insert r S \ T).card := by
  have hset : insert r S \ T = insert r (S \ insert r T) := by
    ext x
    simp only [Finset.mem_sdiff, Finset.mem_insert]
    constructor
    · rintro ⟨hx | hx, hxt⟩
      · exact Or.inl hx
      · by_cases hxr : x = r
        · exact Or.inl hxr
        · exact Or.inr ⟨hx, fun hc => hc.elim hxr hxt⟩
    · rintro (hx | ⟨hxS, hxnot⟩)
      · exact ⟨Or.inl hx, hx ▸ h⟩
      · exact ⟨Or.inr hxS, fun hxT => hxnot (Or.inr hxT)⟩
  rw [hset, Finset.card_insert_of_not_mem]
  intro hc
  exact (Finset.mem_sdiff.mp hc).2 (Finset.mem_insert_self r T)

/-- The dedup loop returns exactly one entry per resolved form not already
seen: its length is the number of distinct resolved forms outside `seen`. -/
theorem dedupFirst_length (resolve : PyPath → PyPath) :
    ∀ (l seen : List PyPath),
    (dedupFirst resolve seen l).length
      = ((l.map resolve).toFinset \ seen.toFinset).card
  | [], seen => by simp [dedupFirst]
  | f :: rest, seen => by
    unfold dedupFirst
    by_cases hmem : resolve f ∈ seen
    · rw [if_pos hmem, dedupFirst_length resolve rest seen]
      congr 1
      rw [List.map_cons, List.toFinset_cons]
      exact (Finset.insert_sdiff_of_mem _ (List.mem_toFinset.mpr hmem)).symm
    · rw [if_neg hmem]
      simp only [List.length_cons, List.map_cons, List.toFinset_cons]
      rw [dedupFirst_length resolve rest (resolve f :: seen)]
      rw [List.toFinset_cons]
      exact card_insert_sdiff (resolve f) (rest.map resolve).toFinset seen.toFinset
        (fun hc => hmem (List.mem_toFinset.mp hc))

/-- C5: for every list of input paths and every filesystem enumeration
order (the `glob` oracle), `collect_files` returns a list in which no two
entries have equal canonicalized (resolved) forms, each kept entry is the
first occurrence of its resolved form in scan order, the list is sorted by
path (hence deterministically ordered), and its length is the number of
distinct canonicalized paths among the scanned files. -/
theorem collect_files_dedup_sorted (env : CollectEnv) (paths : List PyPath)
    (recursive : Bool) :
    ((collect_files env paths recursive).Pairwise
        (fun a b => env.resolve a ≠ env.resolve b)) ∧
    List.Sorted pathLe (collect_files env paths recursive) ∧
    ((collect_files env paths recursive).length
      = ((scanFiles env paths recursive).map env.resolve).toFinset.card) ∧
    (∀ f ∈ collect_files env paths recursive,
      ∃ pre post, scanFiles env paths recursive = pre ++ f :: post ∧
        ∀ g ∈ pre, env.resolve g ≠ env.resolve f) := by
  have hperm : List.Perm (collect_files env paths recursive)
      (dedupFirst env.resolve [] (scanFiles env paths recursive)) :=
    List.perm_insertionSort pathLe _
  obtain ⟨pw, mem⟩ := dedupFirst_spec env.resolve (scanFiles env paths recursive) []
  refine ⟨?_, ?_, ?_, ?_⟩
  · exact (List.Perm.pairwise_iff (fun h hEq => h hEq.symm) hperm).mpr pw
  · exact List.sorted_insertionSort pathLe _
  · rw [hperm.length_eq, dedupFirst_length]
    simp
  · intro f hf
    obtain ⟨_, pre, post, hsplit, hpre⟩ := mem f (hperm.mem_iff.mp hf)
    exact ⟨pre, post, hsplit, hpre⟩

/-- A collection oracle on which nothing exists: no files, no directories,
empty glob results, resolution the identity. -/
def trivialCollectEnv : CollectEnv :=
  { isFile := fun _ => false,
    isDir := fun _ => false,
    glob := fun _ _ _ => [],
    resolve := fun p => p }

/-- C5 witness: the collector theorem applied to a concrete oracle and
input list. -/
theorem collect_files_dedup_sorted_witness :
    ((collect_files trivialCollectEnv [samplePng] true).Pairwise
        (fun a b => trivialCollectEnv.resolve a ≠ trivialCollectEnv.resolve b)) ∧
    List.Sorted pathLe (collect_files trivialCollectEnv [samplePng] true) ∧
    ((collect_files trivialCollectEnv [samplePng] true).length
      = ((scanFiles trivialCollectEnv [samplePng] true).map
          trivialCollectEnv.resolve).toFinset.card) ∧
    (∀ f ∈ collect_files trivialCollectEnv [samplePng] true,
      ∃ pre post, scanFiles trivialCollectEnv [samplePng] true = pre ++ f :: post ∧
        ∀ g ∈ pre, trivialCollectEnv.resolve g ≠ trivialCollectEnv.resolve f) :=
  collect_files_dedup_sorted trivialCollectEnv [samplePng] true

/-- C6: for every CLI invocation that passes argument parsing, the exit
code of `main` is 1 when no supported files were found; and otherwise,
writing `result` for the batch result of the dispatched conversions:
0 when every conversion succeeded (`failed = 0`), 1 when all of them
failed (`successful = 0`; at least one ran since the file list is
nonempty), and 2 when some succeeded and some failed. -/
theorem main_exit_codes (cenv : CollectEnv) (fenv : FSEnv) (args : Args)
    (files : List PyPath) (result : BatchResult)
    (hfiles : files = collect_files cenv args.input (!args.no_recursive))
    (hresult : result = (BatchProcessor.init (ImageConverter.init args.quality)
        args.parallel).process fenv files args.output args.overwrite) :
    (files = [] → main_run cenv fenv args = 1) ∧
    (files ≠ [] → result.failed = 0 → main_run cenv fenv args = 0) ∧
    (files ≠ [] → result.successful = 0 → main_run cenv fenv args = 1) ∧
    (files ≠ [] → 0 < result.successful → 0 < result.failed →
      main_run cenv fenv args = 2) := by
  refine ⟨?_, ?_, ?_, ?_⟩
  · intro hnil
    simp [main_run, hfiles.symm.trans hnil]
  · intro hne hfz
    have hfe : files.isEmpty = false := by
      cases files
      · exact absurd rfl hne
      · rfl
    have hfz' : ((BatchProcessor.init (ImageConverter.init args.quality)
        args.parallel).process fenv files args.output args.overwrite).failed = 0 := by
      rw [← hresult]; exact hfz
    simp [main_run, hfiles.symm, hfe, hfz']
  · intro hne hsz
    have hfe : files.isEmpty = false := by
      cases files
      · exact absurd rfl hne
      · rfl
    obtain ⟨ht, hc, -⟩ := process_total_eq_successful_add_failed
      (BatchProcessor.init (ImageConverter.init args.quality) args.parallel)
      fenv files files args.output args.overwrite (List.Perm.refl _)
    have ht' : result.total = files.length := by rw [hresult]; exact ht
    have hc' : result.total = result.successful + result.failed := by
      rw [hresult]; exact hc
    have hflen : 0 < files.length := by
      cases files
      · exact absurd rfl hne
      · simp
    have hfpos : 0 < result.failed := by omega
    have hsz' : ((BatchProcessor.init (ImageConverter.init args.quality)
        args.parallel).process fenv files args.output args.overwrite).successful = 0 := by
      rw [← hresult]; exact hsz
    have hfpos' : 0 < ((BatchProcessor.init (ImageConverter.init args.quality)
        args.parallel).process fenv files args.output args.overwrite).failed := by
      rw [← hresult]; exact hfpos
    simp [main_run, hfiles.symm, hfe, hsz', hfpos']
  · intro hne hspos hfpos
    have hfe : files.isEmpty = false := by
      cases files
      · exact absurd rfl hne
      · rfl
    have hsne : result.successful ≠ 0 := by omega
    have hsne' : ((BatchProcessor.init (ImageConverter.init args.quality)
        args.parallel).process fenv files args.output args.overwrite).successful ≠ 0 := by
      rw [← hresult]; exact hsne
    have hfpos' : 0 < ((BatchProcessor.init (ImageConverter.init args.quality)
        args.parallel).process fenv files args.output args.overwrite).failed := by
      rw [← hresult]; exact hfpos
    simp [main_run, hfiles.symm, hfe, hsne', hfpos']

/-- A CLI invocation with no inputs at all. -/
def emptyArgs : Args := { input := [] }

/-- C6 witness: on an invocation that collects no supported files, `main`
exits with code 1 (the empty-collection hypotheses discharged at a
concrete oracle). -/
theorem main_exit_codes_witness :
    main_run trivialCollectEnv emptyFsEnv emptyArgs = 1 :=
  (main_exit_codes trivialCollectEnv emptyFsEnv emptyArgs []
    ((BatchProcessor.init (ImageConverter.init emptyArgs.quality)
        emptyArgs.parallel).process emptyFsEnv [] emptyArgs.output emptyArgs.overwrite)
    (by rfl) rfl).1 rfl
